import Mathlib

/-!
Verification of the Soroban-Registry repository: the execution-profiling
subsystem consumed by the CLI `profile` command, and the disaster-recovery
incident HTTP handlers.

Durations and timestamps are modelled as natural numbers of nanoseconds;
percentages are exact rationals.  The profiler module itself is not part of
the repository snapshot (only its caller `cli/src/commands.rs` is), so the
profiler definitions below are modelled from the specification; each such
definition says so in its doc comment.  The incident handlers are embedded
directly from `backend/api/src/incident_handlers.rs`, and the `profile`
command flow from `cli/src/commands.rs`.
-/

/-- Modelled from the spec: §3 `FunctionProfile` — one entry per distinct
function name encountered during a run.  `total_time` and `avg_time` are
nanosecond counts. -/
structure FunctionProfile where
  name : String
  call_count : Nat
  total_time : Nat
  avg_time : Nat
deriving DecidableEq, Repr

/-- Modelled from the spec: §3 `ProfileData` — the immutable snapshot
returned at the end of a run.  The `functions` map (Rust `HashMap` keyed by
function name) is modelled as a list of profiles with the key stored in the
`name` field. -/
structure ProfileData where
  contract_path : String
  method : Option String
  total_duration : Nat
  overhead_percent : ℚ
  functions : List FunctionProfile
deriving DecidableEq, Repr

/-- Modelled from the spec: §3 classification outcome of one function's
delta between two profiles. -/
inductive ComparisonStatus where
  | Regression
  | Improvement
  | Unchanged
deriving DecidableEq, Repr

/-- Modelled from the spec: §3 `Comparison` — one row of the comparator's
output, consumed by the CLI loop at `cli/src/commands.rs:280`. -/
structure Comparison where
  function : String
  status : ComparisonStatus
  time_diff_ns : Int
  time_diff_percent : ℚ
  baseline_time : Nat
  current_time : Nat
deriving DecidableEq, Repr

/-- Modelled from the spec: §4.4 — the default symmetric classification
threshold of ±5%. -/
def defaultThreshold : ℚ := 5

/-- Modelled from the spec: §4.4 — the sentinel that `time_diff_percent`
is clamped to when the baseline total time is zero (a full-magnitude delta,
reported as 100%), instead of propagating a divide-by-zero fault. -/
def clampSentinel : ℚ := 100

/-- The keys of a functions map, in insertion order. -/
def namesOf (fs : List FunctionProfile) : List String :=
  fs.map (fun f => f.name)

/-- Lookup of a function profile by name, the map access of the comparator. -/
def findFn (fs : List FunctionProfile) (n : String) : Option FunctionProfile :=
  fs.find? (fun f => f.name == n)

/-- Modelled from the spec: §4.4 — the total time a profile attributes to a
function name, treating a missing side as zero total time. -/
def totalOf (p : ProfileData) (n : String) : Nat :=
  match findFn p.functions n with
  | some f => f.total_time
  | none => 0

/-- Modelled from the spec: §4.4 — `time_diff_percent = time_diff_ns /
baseline.total_time * 100`, clamped to the sentinel when the baseline total
is zero. -/
def diffPercent (baseNs : Nat) (diffNs : Int) : ℚ :=
  if baseNs = 0 then clampSentinel
  else (diffNs : ℚ) / (baseNs : ℚ) * 100

/-- Modelled from the spec: §4.4 classification thresholds — percent above
the threshold is a regression, below its negation an improvement, otherwise
unchanged. -/
def classify (threshold pct : ℚ) : ComparisonStatus :=
  if pct > threshold then ComparisonStatus.Regression
  else if pct < -threshold then ComparisonStatus.Improvement
  else ComparisonStatus.Unchanged

/-- Modelled from the spec: §4.4 — the comparator's work for a single
function name in the union of the two profiles' maps. -/
def compareFunction (threshold : ℚ) (baseline current : ProfileData)
    (n : String) : Comparison :=
  let b := totalOf baseline n
  let c := totalOf current n
  let d : Int := (c : Int) - (b : Int)
  let pct := diffPercent b d
  { function := n
    status := classify threshold pct
    time_diff_ns := d
    time_diff_percent := pct
    baseline_time := b
    current_time := c }

/-- Modelled from the spec: §4.4 — every function name present in the union
of both profiles' functions maps, baseline names first, then the names that
appear only in the current profile. -/
def unionNames (baseline current : ProfileData) : List String :=
  let bs := namesOf baseline.functions
  bs ++ (namesOf current.functions).filter (fun n => !(bs.contains n))

/-- Sort key of a comparison row: the absolute nanosecond delta. -/
def cmpKey (c : Comparison) : Nat :=
  c.time_diff_ns.natAbs

/-- The comparator's output order: descending absolute `time_diff_ns`. -/
def cmpGe (a b : Comparison) : Prop :=
  cmpKey b ≤ cmpKey a

instance : DecidableRel cmpGe :=
  fun a b => Nat.decLe (cmpKey b) (cmpKey a)

instance : IsTotal Comparison cmpGe :=
  ⟨fun a b => Nat.le_total (cmpKey b) (cmpKey a)⟩

instance : IsTrans Comparison cmpGe :=
  ⟨fun _ _ _ hab hbc => Nat.le_trans hbc hab⟩

/-- Modelled from the spec: §4.4 `compare(baseline, current)` — one
comparison per name in the union of the two maps, returned sorted by
descending absolute `time_diff_ns`. -/
def compare_profiles (threshold : ℚ) (baseline current : ProfileData) :
    List Comparison :=
  List.insertionSort cmpGe
    ((unionNames baseline current).map (compareFunction threshold baseline current))

/-- Modelled from the spec: §4.1 — the running statistics the Call Recorder
keeps for one function name while a run is in progress. -/
structure FnStat where
  call_count : Nat
  total_time : Nat
deriving DecidableEq, Repr

/-- Modelled from the spec: §3 `CallFrame` — an active frame on the
recorder's call stack: the function name and its entry timestamp. -/
structure CallFrame where
  name : String
  start : Nat
deriving DecidableEq, Repr

/-- Modelled from the spec: §4.1 — the Call Recorder state: the active call
stack, the per-function statistics accumulated so far, the recorder's own
instrumentation-cost accumulator, and its creation timestamp. -/
structure Profiler where
  stack : List CallFrame
  stats : List (String × FnStat)
  overhead : Nat
  created_at : Nat
deriving DecidableEq, Repr

/-- Modelled from the spec: §7 — recorder misuse (an `exit` with no
matching `enter`, or finishing with frames still open) is an internal
invariant violation propagated as a fatal error. -/
inductive RecErr where
  | RecorderMisuse
deriving DecidableEq, Repr

/-- Modelled from the spec: §4.1 — one recorder operation driven by the
Simulator, carrying the monotonic timestamp (in nanoseconds) at which it
happens. -/
inductive RecOp where
  | enter (name : String) (now : Nat)
  | exit (now : Nat)
deriving DecidableEq, Repr

/-- Modelled from the spec: §4.1 — `enter` increments the function's
running call count immediately, materializing the entry (with count 1) the
first time the name is seen. -/
def recordCall : List (String × FnStat) → String → List (String × FnStat)
  | [], n => [(n, ⟨1, 0⟩)]
  | (m, s) :: rest, n =>
    if m == n then (m, ⟨s.call_count + 1, s.total_time⟩) :: rest
    else (m, s) :: recordCall rest n

/-- Modelled from the spec: §4.1 — `exit` adds the frame's elapsed
inclusive duration to the corresponding entry's total time.  The entry
always exists because `enter` created it; an absent name is left alone. -/
def addTime : List (String × FnStat) → String → Nat → List (String × FnStat)
  | [], _, _ => []
  | (m, s) :: rest, n, d =>
    if m == n then (m, ⟨s.call_count, s.total_time + d⟩) :: rest
    else (m, s) :: addTime rest n d

/-- Modelled from the spec: §4.1 `start()` — an empty recorder with the
overhead accumulator zeroed, created at the given timestamp. -/
def Profiler.start (now : Nat) : Profiler :=
  ⟨[], [], 0, now⟩

/-- Modelled from the spec: §4.1 — one recorder transition.  `enter` pushes
a frame and bumps the call count; `exit` on a nonempty stack pops the frame
and accumulates its inclusive duration; `exit` on an empty stack is
recorder misuse and fails loudly. -/
def step (p : Profiler) : RecOp → Except RecErr Profiler
  | RecOp.enter n now =>
    Except.ok { p with stack := ⟨n, now⟩ :: p.stack, stats := recordCall p.stats n }
  | RecOp.exit now =>
    match p.stack with
    | [] => Except.error RecErr.RecorderMisuse
    | f :: rest =>
      Except.ok { p with stack := rest, stats := addTime p.stats f.name (now - f.start) }

/-- Modelled from the spec: §4.1 — running a sequence of recorder
operations, stopping at the first fatal error. -/
def runOps (p : Profiler) : List RecOp → Except RecErr Profiler
  | [] => Except.ok p
  | op :: rest =>
    match step p op with
    | Except.error e => Except.error e
    | Except.ok q => runOps q rest

/-- Modelled from the spec: §4.1 `finish(contract_path, method)` — asserts
the call stack is empty, recomputes `avg_time = total_time / call_count`
for every recorded function, computes the run's total duration and the
recorder's overhead percentage, and returns the immutable snapshot. -/
def Profiler.finish (p : Profiler) (now : Nat) (contract_path : String)
    (method : Option String) : Except RecErr ProfileData :=
  match p.stack with
  | _ :: _ => Except.error RecErr.RecorderMisuse
  | [] =>
    let total := now - p.created_at
    Except.ok
      { contract_path := contract_path
        method := method
        total_duration := total
        overhead_percent :=
          if total = 0 then 0 else (p.overhead : ℚ) / (total : ℚ) * 100
        functions :=
          p.stats.map (fun s =>
            ⟨s.1, s.2.call_count, s.2.total_time, s.2.total_time / s.2.call_count⟩) }

/-- The filesystem view the `profile` command consults: which paths exist
(`cli/src/commands.rs:228`, `Path::new(contract_path).exists()`). -/
structure Fs where
  pathExists : String → Bool

/-- The observable side effects the `profile` command can perform, in
order: creating the profiler (`cli/src/commands.rs:236`) and writing a file
(the profile export at line 262 and the flame graph at line 268). -/
inductive CliEffect where
  | profilerCreated
  | fileWritten (path : String)
deriving DecidableEq, Repr

/-- The error outcomes of the `profile` command: the missing-contract bail
at `cli/src/commands.rs:230`, a recorder failure propagated with `?`, and a
failure to read or parse the comparison baseline (lines 273-275). -/
inductive CmdError where
  | notFound (path : String)
  | recorder (e : RecErr)
  | baselineRead (path : String)
deriving DecidableEq, Repr

/-- The `profile` command of `cli/src/commands.rs:220-306`, embedded as a
function from its inputs to its result together with the ordered list of
side effects it performed.  The missing profiler internals are parameters:
`sim` stands for `profiler::simulate_execution` driving the recorder, and
`readBaseline` for reading and deserializing the `--compare` baseline.
The source checks that the contract path exists before anything else and
bails with a not-found error, so on that branch no profiler is created and
no file is written. -/
def profileCmd (fs : Fs) (contract_path : String) (method : Option String)
    (output flamegraph cmpBaseline : Option String)
    (sim : Profiler → Except RecErr Profiler) (endTime : Nat)
    (readBaseline : String → Option ProfileData) :
    Except CmdError Unit × List CliEffect :=
  if fs.pathExists contract_path = false then
    (Except.error (CmdError.notFound contract_path), [])
  else
    match sim (Profiler.start 0) with
    | Except.error e => (Except.error (CmdError.recorder e), [CliEffect.profilerCreated])
    | Except.ok p =>
      match p.finish endTime contract_path method with
      | Except.error e => (Except.error (CmdError.recorder e), [CliEffect.profilerCreated])
      | Except.ok _ =>
        let eff1 := [CliEffect.profilerCreated]
        let eff2 := match output with
          | some path => eff1 ++ [CliEffect.fileWritten path]
          | none => eff1
        let eff3 := match flamegraph with
          | some path => eff2 ++ [CliEffect.fileWritten path]
          | none => eff2
        match cmpBaseline with
        | some bpath =>
          match readBaseline bpath with
          | none => (Except.error (CmdError.baselineRead bpath), eff3)
          | some _ => (Except.ok (), eff3)
        | none => (Except.ok (), eff3)

/-- Modelled from the spec: §6 — the structured exchange document a
`ProfileData` is exported to (the JSON value written at
`cli/src/commands.rs:261-262` and read back at lines 273-275). -/
inductive Doc where
  | dStr (v : String)
  | dNat (v : Nat)
  | dRat (v : ℚ)
  | dNull
  | dList (items : List Doc)
  | dObj (fields : List (String × Doc))

/-- Modelled from the spec: §6 — an optional method name in the exchange
document: `null` when absent. -/
def exportOptStr : Option String → Doc
  | none => Doc.dNull
  | some s => Doc.dStr s

/-- Modelled from the spec: §6 — parse an optional method name back,
rejecting any other document shape. -/
def importOptStr : Doc → Option (Option String)
  | Doc.dNull => some none
  | Doc.dStr s => some (some s)
  | _ => none

/-- Modelled from the spec: §6 — serialize one `FunctionProfile` with the
field set of §3. -/
def exportFunction (f : FunctionProfile) : Doc :=
  Doc.dObj
    [("name", Doc.dStr f.name), ("call_count", Doc.dNat f.call_count),
     ("total_time", Doc.dNat f.total_time), ("avg_time", Doc.dNat f.avg_time)]

/-- Modelled from the spec: §6 — deserialize one `FunctionProfile`,
failing on any malformed document. -/
def importFunction : Doc → Option FunctionProfile
  | Doc.dObj
      [("name", Doc.dStr n), ("call_count", Doc.dNat c),
       ("total_time", Doc.dNat t), ("avg_time", Doc.dNat a)] =>
    some ⟨n, c, t, a⟩
  | _ => none

/-- Modelled from the spec: §6 — deserialize every entry of the functions
list, failing if any single entry is malformed. -/
def importFunctions : List Doc → Option (List FunctionProfile)
  | [] => some []
  | d :: rest => do
    let f ← importFunction d
    let fs ← importFunctions rest
    some (f :: fs)

/-- Modelled from the spec: §6 — serialize a `ProfileData` to the exchange
document, field set exactly as in §3. -/
def exportProfile (p : ProfileData) : Doc :=
  Doc.dObj
    [("contract_path", Doc.dStr p.contract_path),
     ("method", exportOptStr p.method),
     ("total_duration", Doc.dNat p.total_duration),
     ("overhead_percent", Doc.dRat p.overhead_percent),
     ("functions", Doc.dList (p.functions.map exportFunction))]

/-- Modelled from the spec: §6 — deserialize a `ProfileData` from the
exchange document, failing (a serialization error) on any malformed
document rather than guessing. -/
def importProfile : Doc → Option ProfileData
  | Doc.dObj
      [("contract_path", Doc.dStr cp), ("method", m),
       ("total_duration", Doc.dNat td), ("overhead_percent", Doc.dRat op),
       ("functions", Doc.dList fs)] => do
    let method ← importOptStr m
    let funcs ← importFunctions fs
    some ⟨cp, method, td, op, funcs⟩
  | _ => none

/-- A disaster-recovery incident row, from the `Incident` struct of
`backend/api/src/incident_handlers.rs:19-33`.  UUIDs are modelled as
naturals, timestamps and intervals as integers and strings. -/
structure Incident where
  id : Nat
  contract_id : Option Nat
  incident_type : String
  description : String
  start_time : Int
  end_time : Option Int
  rto_achieved : Option String
  rpo_achieved : Option String
  lessons_learned : Option String
  notified_users : Bool
  created_at : Int
  updated_at : Int
deriving DecidableEq, Repr

/-- The update payload, from `UpdateIncidentRequest` of
`backend/api/src/incident_handlers.rs:43-50`; every field is optional and
an omitted field deserializes to `none`. -/
structure UpdateIncidentRequest where
  end_time : Option Int
  rto_achieved : Option String
  rpo_achieved : Option String
  lessons_learned : Option String
  notified_users : Option Bool
deriving DecidableEq, Repr

/-- The pagination query of `ListIncidentsQuery`,
`backend/api/src/incident_handlers.rs:133-137`. -/
structure ListIncidentsQuery where
  limit : Option Nat
  offset : Option Nat
deriving DecidableEq, Repr

/-- The row transformation of the UPDATE statement in `update_incident`,
`backend/api/src/incident_handlers.rs:88`: `SET end_time = $1,
rto_achieved = $2, rpo_achieved = $3, lessons_learned = $4,
notified_users = COALESCE($5, notified_users)`. -/
def applyUpdate (inc : Incident) (req : UpdateIncidentRequest) : Incident :=
  { inc with
    end_time := req.end_time
    rto_achieved := req.rto_achieved
    rpo_achieved := req.rpo_achieved
    lessons_learned := req.lessons_learned
    notified_users := req.notified_users.getD inc.notified_users }

/-- The `update_incident` handler,
`backend/api/src/incident_handlers.rs:79-105`, acting on the incidents
table (`WHERE id = $6` applies the SET clause to the matching rows). -/
def update_incident (db : List Incident) (incident_id : Nat)
    (req : UpdateIncidentRequest) : List Incident :=
  db.map (fun inc => if inc.id = incident_id then applyUpdate inc req else inc)

/-- The ordering of the `list_incidents` SELECT:
`ORDER BY start_time DESC`. -/
def incGe (a b : Incident) : Prop :=
  b.start_time ≤ a.start_time

instance : DecidableRel incGe :=
  fun a b => Int.decLe b.start_time a.start_time

/-- The rows of the incidents table ordered by descending start time, the
result set the LIMIT/OFFSET of `list_incidents` pages through. -/
def sortIncidents (db : List Incident) : List Incident :=
  List.insertionSort incGe db

/-- The `list_incidents` handler,
`backend/api/src/incident_handlers.rs:107-131`: the effective limit is
`params.limit.unwrap_or(50).min(100)`, the effective offset
`params.offset.unwrap_or(0)`, applied as `LIMIT $1 OFFSET $2` to the rows
ordered by descending start time. -/
def list_incidents (db : List Incident) (params : ListIncidentsQuery) :
    List Incident :=
  let limit := min (params.limit.getD 50) 100
  let offset := params.offset.getD 0
  ((sortIncidents db).drop offset).take limit

/-- All running statistics have been entered at least once: the invariant
the recorder maintains because `enter` materializes an entry with count 1
and nothing ever lowers a count. -/
def statsPos (stats : List (String × FnStat)) : Prop :=
  ∀ s ∈ stats, 1 ≤ s.2.call_count

/-- The spec's worked comparison baseline: `{f: total_time=100ms,
calls=10}`. -/
def profileC1Baseline : ProfileData :=
  ⟨"contract.wasm", none, 0, 0, [⟨"f", 10, 100000000, 10000000⟩]⟩

/-- The spec's worked comparison current profile: `{f: total_time=150ms,
calls=10}`. -/
def profileC1Current : ProfileData :=
  ⟨"contract.wasm", none, 0, 0, [⟨"f", 10, 150000000, 15000000⟩]⟩

/-- A one-function profile with a positive total time. -/
def profileW : ProfileData :=
  ⟨"w.wasm", none, 0, 0, [⟨"f", 1, 1, 1⟩]⟩

/-- The comparison row `compare` produces for `f` when `profileW` is
compared against itself. -/
def compW : Comparison :=
  compareFunction defaultThreshold profileW profileW "f"

/-- A profile whose single function was entered once but accumulated zero
total time. -/
def zeroProfile : ProfileData :=
  ⟨"z.wasm", none, 0, 0, [⟨"f", 1, 0, 0⟩]⟩

/-- A baseline with no functions at all. -/
def baseC6 : ProfileData := ⟨"b.wasm", none, 0, 0, []⟩

/-- A current profile with one function `g` absent from `baseC6`. -/
def curC6 : ProfileData := ⟨"c.wasm", none, 0, 0, [⟨"g", 1, 7, 7⟩]⟩

/-- The recorder state after entering and exiting `f` once (timestamps 0
and 3). -/
def profilerW : Profiler := ⟨[], [("f", ⟨1, 3⟩)], 0, 0⟩

/-- The snapshot `finish` builds from `profilerW` at timestamp 0. -/
def pdW : ProfileData := ⟨"c.wasm", none, 0, 0, [⟨"f", 1, 3, 3⟩]⟩

/-- A filesystem on which no path exists. -/
def fsEmpty : Fs := ⟨fun _ => false⟩

/-- A stored incident row. -/
def incW : Incident :=
  ⟨7, some 3, "outage", "db down", 100, none, none, none, none, true, 90, 90⟩

/-- An update request that omits `notified_users` and `end_time` and sets
only `lessons_learned`. -/
def reqW : UpdateIncidentRequest :=
  ⟨none, none, none, some "have backups", none⟩

theorem classify_eq_Regression_iff (t pct : ℚ) :
    classify t pct = ComparisonStatus.Regression ↔ pct > t := by
  unfold classify
  split
  · simp_all
  · split <;> simp_all

theorem classify_eq_Improvement_iff (t pct : ℚ) (ht : 0 ≤ t) :
    classify t pct = ComparisonStatus.Improvement ↔ pct < -t := by
  unfold classify
  split
  · rename_i hgt
    constructor
    · intro h
      exact absurd h (by simp)
    · intro hlt
      exact absurd hgt (not_lt.mpr (le_trans hlt.le (le_trans (neg_nonpos.mpr ht) ht)))
  · split <;> simp_all

theorem classify_eq_Unchanged_iff (t pct : ℚ) :
    classify t pct = ComparisonStatus.Unchanged ↔ ¬ pct > t ∧ ¬ pct < -t := by
  unfold classify
  split
  · simp_all
  · split <;> simp_all

theorem mem_compare_profiles_iff (t : ℚ) (baseline current : ProfileData)
    (c : Comparison) :
    c ∈ compare_profiles t baseline current ↔
      ∃ n ∈ unionNames baseline current, compareFunction t baseline current n = c := by
  rw [compare_profiles, List.mem_insertionSort, List.mem_map]

theorem findFn_eq_none_iff (fs : List FunctionProfile) (n : String) :
    findFn fs n = none ↔ n ∉ namesOf fs := by
  rw [findFn, List.find?_eq_none]
  simp [namesOf]

theorem findFn_ne_none_iff (fs : List FunctionProfile) (n : String) :
    findFn fs n ≠ none ↔ n ∈ namesOf fs := by
  rw [ne_eq, findFn_eq_none_iff, not_not]

theorem mem_unionNames_of_current (baseline current : ProfileData) (n : String)
    (hb : n ∉ namesOf baseline.functions)
    (hc : n ∈ namesOf current.functions) :
    n ∈ unionNames baseline current := by
  unfold unionNames
  refine List.mem_append_right _ (List.mem_filter.mpr ⟨hc, ?_⟩)
  simpa using hb

theorem statsPos_recordCall (stats : List (String × FnStat)) (n : String)
    (h : statsPos stats) : statsPos (recordCall stats n) := by
  induction stats with
  | nil =>
    intro s hs
    simp [recordCall] at hs
    simp [hs]
  | cons hd tl ih =>
    obtain ⟨m, st⟩ := hd
    intro s hs
    rw [recordCall] at hs
    by_cases hmn : (m == n) = true
    · rw [if_pos hmn] at hs
      rcases List.mem_cons.mp hs with h1 | h2
      · subst h1
        simp
      · exact h s (List.mem_cons_of_mem _ h2)
    · rw [if_neg hmn] at hs
      rcases List.mem_cons.mp hs with h1 | h2
      · subst h1
        exact h (m, st) (List.mem_cons_self _ _)
      · exact ih (fun s hs => h s (List.mem_cons_of_mem _ hs)) s h2

theorem statsPos_addTime (stats : List (String × FnStat)) (n : String) (d : Nat)
    (h : statsPos stats) : statsPos (addTime stats n d) := by
  induction stats with
  | nil =>
    intro s hs
    simp [addTime] at hs
  | cons hd tl ih =>
    obtain ⟨m, st⟩ := hd
    intro s hs
    rw [addTime] at hs
    by_cases hmn : (m == n) = true
    · rw [if_pos hmn] at hs
      rcases List.mem_cons.mp hs with h1 | h2
      · subst h1
        exact h (m, st) (List.mem_cons_self _ _)
      · exact h s (List.mem_cons_of_mem _ h2)
    · rw [if_neg hmn] at hs
      rcases List.mem_cons.mp hs with h1 | h2
      · subst h1
        exact h (m, st) (List.mem_cons_self _ _)
      · exact ih (fun s hs => h s (List.mem_cons_of_mem _ hs)) s h2

theorem statsPos_step (p q : Profiler) (op : RecOp)
    (hstep : step p op = Except.ok q) (h : statsPos p.stats) :
    statsPos q.stats := by
  cases op with
  | enter n now =>
    rw [step] at hstep
    injection hstep with hq
    subst hq
    exact statsPos_recordCall p.stats n h
  | exit now =>
    rw [step] at hstep
    cases hstack : p.stack with
    | nil => rw [hstack] at hstep; exact absurd hstep (by simp)
    | cons f rest =>
      rw [hstack] at hstep
      injection hstep with hq
      subst hq
      exact statsPos_addTime p.stats f.name _ h

theorem statsPos_runOps (ops : List RecOp) (p q : Profiler)
    (hrun : runOps p ops = Except.ok q) (h : statsPos p.stats) :
    statsPos q.stats := by
  induction ops generalizing p with
  | nil =>
    rw [runOps] at hrun
    injection hrun with hq
    subst hq
    exact h
  | cons op rest ih =>
    rw [runOps] at hrun
    cases hstep : step p op with
    | error e => rw [hstep] at hrun; exact absurd hrun (by simp)
    | ok r =>
      rw [hstep] at hrun
      exact ih r hrun (statsPos_step p r op hstep h)

theorem runOps_append (p : Profiler) (l1 l2 : List RecOp) :
    runOps p (l1 ++ l2) =
      match runOps p l1 with
      | Except.error e => Except.error e
      | Except.ok q => runOps q l2 := by
  induction l1 generalizing p with
  | nil => rfl
  | cons op tl ih =>
    rw [List.cons_append, runOps, runOps]
    cases step p op with
    | error e => rfl
    | ok q => exact ih q

theorem importFunction_exportFunction (f : FunctionProfile) :
    importFunction (exportFunction f) = some f := rfl

theorem importFunctions_map_exportFunction (fs : List FunctionProfile) :
    importFunctions (fs.map exportFunction) = some fs := by
  induction fs with
  | nil => rfl
  | cons f tl ih =>
    simp [importFunctions, importFunction_exportFunction, ih]

theorem compW_mem : compW ∈ compare_profiles defaultThreshold profileW profileW := by
  simp [compare_profiles, unionNames, namesOf, profileW, compW,
    List.insertionSort, List.orderedInsert]

/-- C1: for every pair of profiles and every comparison row `compare`
returns, the row's status follows the symmetric threshold — `Regression`
exactly when `time_diff_percent > threshold`, `Improvement` exactly when
`time_diff_percent < -threshold`, `Unchanged` otherwise — and on the spec's
worked example (baseline `f` at 100ms, current `f` at 150ms, 10 calls each,
default 5% threshold) the result is a single `Regression` row with
`time_diff_percent` exactly 50. -/
theorem spec_C1 :
    (∀ (t : ℚ), 0 ≤ t → ∀ (baseline current : ProfileData) (c : Comparison),
      c ∈ compare_profiles t baseline current →
      ((c.status = ComparisonStatus.Regression ↔ c.time_diff_percent > t) ∧
       (c.status = ComparisonStatus.Improvement ↔ c.time_diff_percent < -t) ∧
       (c.status = ComparisonStatus.Unchanged ↔
         ¬ c.time_diff_percent > t ∧ ¬ c.time_diff_percent < -t))) ∧
    compare_profiles defaultThreshold profileC1Baseline profileC1Current =
      [⟨"f", ComparisonStatus.Regression, 50000000, 50, 100000000, 150000000⟩] := by
  constructor
  · intro t ht baseline current c hc
    obtain ⟨n, hn, rfl⟩ := (mem_compare_profiles_iff t baseline current c).mp hc
    simp only [compareFunction]
    exact ⟨classify_eq_Regression_iff t _, classify_eq_Improvement_iff t _ ht,
      classify_eq_Unchanged_iff t _⟩
  · simp [compare_profiles, unionNames, namesOf, profileC1Baseline, profileC1Current,
      compareFunction, totalOf, findFn, diffPercent, classify, clampSentinel,
      defaultThreshold, List.insertionSort, List.orderedInsert]
    norm_num

/-- Witness for C1: the general classification clause instantiated on the
comparison of `profileW` with itself at the default threshold. -/
theorem spec_C1_witness :
    (0 : ℚ) ≤ defaultThreshold ∧
    compW ∈ compare_profiles defaultThreshold profileW profileW ∧
    (compW.status = ComparisonStatus.Unchanged ↔
      ¬ compW.time_diff_percent > defaultThreshold ∧
      ¬ compW.time_diff_percent < -defaultThreshold) :=
  ⟨by norm_num [defaultThreshold], compW_mem,
   (spec_C1.1 defaultThreshold (by norm_num [defaultThreshold]) profileW profileW
     compW compW_mem).2.2⟩

/-- C5 counterexample: comparing `zeroProfile` (one function entered once
with zero accumulated time) against itself puts `f` in the output with the
clamp sentinel percent and a `Regression` status, not `Unchanged` with
percent 0: a zero baseline total routes through the sentinel even when the
delta is zero. -/
theorem spec_C5_counterexample :
    compareFunction defaultThreshold zeroProfile zeroProfile "f" ∈
      compare_profiles defaultThreshold zeroProfile zeroProfile ∧
    (compareFunction defaultThreshold zeroProfile zeroProfile "f").time_diff_ns = 0 ∧
    (compareFunction defaultThreshold zeroProfile zeroProfile "f").status =
      ComparisonStatus.Regression ∧
    ¬ (compareFunction defaultThreshold zeroProfile zeroProfile "f").status =
      ComparisonStatus.Unchanged ∧
    (compareFunction defaultThreshold zeroProfile zeroProfile "f").time_diff_percent =
      clampSentinel ∧
    ¬ (compareFunction defaultThreshold zeroProfile zeroProfile "f").time_diff_percent = 0 := by
  decide

/-- C5 (amended): comparing a profile against itself yields, for every
function whose total time is nonzero, status `Unchanged` with
`time_diff_percent` exactly 0; a function with zero total time instead
receives the clamp sentinel percent. -/
theorem spec_C5 :
    ∀ (p : ProfileData) (c : Comparison),
      c ∈ compare_profiles defaultThreshold p p →
      totalOf p c.function ≠ 0 →
      c.status = ComparisonStatus.Unchanged ∧ c.time_diff_percent = 0 := by
  intro p c hc hne
  obtain ⟨n, hn, rfl⟩ := (mem_compare_profiles_iff defaultThreshold p p c).mp hc
  simp only [compareFunction] at hne ⊢
  have hpct : diffPercent (totalOf p n) ((totalOf p n : Int) - (totalOf p n : Int)) = 0 := by
    rw [diffPercent, if_neg hne]
    simp
  rw [hpct]
  refine ⟨?_, rfl⟩
  rw [classify]
  norm_num [defaultThreshold]

/-- Witness for C5: the amended statement instantiated on `profileW`
(total time 1 for its single function) compared against itself. -/
theorem spec_C5_witness :
    compW ∈ compare_profiles defaultThreshold profileW profileW ∧
    totalOf profileW compW.function ≠ 0 ∧
    (compW.status = ComparisonStatus.Unchanged ∧ compW.time_diff_percent = 0) :=
  ⟨compW_mem, by decide, spec_C5 profileW compW compW_mem (by decide)⟩

/-- C6: a function name absent from the baseline but present in the
current profile is compared with the missing baseline side treated as zero
total time: its row appears in the output of `compare`, carries the clamp
sentinel as `time_diff_percent` instead of a divide-by-zero fault, reports
the full-magnitude delta `time_diff_ns = current total`, and a zero
baseline time. -/
theorem spec_C6 :
    ∀ (t : ℚ) (baseline current : ProfileData) (n : String),
      findFn baseline.functions n = none →
      findFn current.functions n ≠ none →
      compareFunction t baseline current n ∈ compare_profiles t baseline current ∧
      (compareFunction t baseline current n).function = n ∧
      (compareFunction t baseline current n).time_diff_percent = clampSentinel ∧
      (compareFunction t baseline current n).time_diff_ns = (totalOf current n : Int) ∧
      (compareFunction t baseline current n).baseline_time = 0 := by
  intro t baseline current n hbase hcur
  have hb0 : totalOf baseline n = 0 := by
    rw [totalOf, hbase]
  have hmem : n ∈ unionNames baseline current :=
    mem_unionNames_of_current baseline current n
      ((findFn_eq_none_iff baseline.functions n).mp hbase)
      ((findFn_ne_none_iff current.functions n).mp hcur)
  refine ⟨?_, rfl, ?_, ?_, ?_⟩
  · exact (mem_compare_profiles_iff t baseline current _).mpr
      ⟨n, hmem, rfl⟩
  · simp only [compareFunction, hb0]
    rw [diffPercent, if_pos rfl]
  · simp only [compareFunction, hb0]
    simp
  · simp only [compareFunction, hb0]

/-- Witness for C6: the function `g` is present only in `curC6`, absent
from the empty baseline `baseC6`. -/
theorem spec_C6_witness :
    findFn baseC6.functions "g" = none ∧
    findFn curC6.functions "g" ≠ none ∧
    (compareFunction defaultThreshold baseC6 curC6 "g" ∈
        compare_profiles defaultThreshold baseC6 curC6 ∧
      (compareFunction defaultThreshold baseC6 curC6 "g").function = "g" ∧
      (compareFunction defaultThreshold baseC6 curC6 "g").time_diff_percent =
        clampSentinel ∧
      (compareFunction defaultThreshold baseC6 curC6 "g").time_diff_ns =
        (totalOf curC6 "g" : Int) ∧
      (compareFunction defaultThreshold baseC6 curC6 "g").baseline_time = 0) :=
  ⟨rfl, by decide, spec_C6 defaultThreshold baseC6 curC6 "g" rfl (by decide)⟩

/-- C2: every function entry of a `ProfileData` built by a successful
`finish` after any recorder run has a positive call count (entries are
materialized only by `enter`, which counts the call immediately), and its
`avg_time` is exactly `total_time / call_count`. -/
theorem spec_C2 :
    ∀ (ops : List RecOp) (startAt finishAt : Nat) (p : Profiler)
      (path : String) (m : Option String) (pd : ProfileData),
      runOps (Profiler.start startAt) ops = Except.ok p →
      p.finish finishAt path m = Except.ok pd →
      ∀ f ∈ pd.functions,
        0 < f.call_count ∧ f.avg_time = f.total_time / f.call_count := by
  intro ops startAt finishAt p path m pd hrun hfin f hf
  have hpos : statsPos p.stats := by
    refine statsPos_runOps ops (Profiler.start startAt) p hrun ?_
    intro s hs
    simp [Profiler.start] at hs
  rw [Profiler.finish] at hfin
  cases hstack : p.stack with
  | cons fr rest => rw [hstack] at hfin; exact absurd hfin (by simp)
  | nil =>
    rw [hstack] at hfin
    injection hfin with hpd
    subst hpd
    simp only at hf
    obtain ⟨s, hs, rfl⟩ := List.mem_map.mp hf
    exact ⟨hpos s hs, rfl⟩

/-- Witness for C2: the run that enters and exits `f` once (timestamps 0
and 3) and finishes at timestamp 0. -/
theorem spec_C2_witness :
    runOps (Profiler.start 0) [RecOp.enter "f" 0, RecOp.exit 3] =
      Except.ok profilerW ∧
    profilerW.finish 0 "c.wasm" none =
      Except.ok ⟨"c.wasm", none, 0, 0, [⟨"f", 1, 3, 3⟩]⟩ ∧
    ∀ f ∈ (⟨"c.wasm", none, 0, 0, [⟨"f", 1, 3, 3⟩]⟩ : ProfileData).functions,
      0 < f.call_count ∧ f.avg_time = f.total_time / f.call_count :=
  ⟨rfl, rfl,
   spec_C2 [RecOp.enter "f" 0, RecOp.exit 3] 0 0 profilerW "c.wasm" none
     ⟨"c.wasm", none, 0, 0, [⟨"f", 1, 3, 3⟩]⟩ rfl rfl⟩

/-- C7: an `exit` issued while the recorder's call stack is empty fails
loudly with `RecorderMisuse` — the whole run's result is that fatal error,
whatever operations follow — and consequently no state survives for
`finish`, so no `ProfileData` is produced from the run. -/
theorem spec_C7 :
    ∀ (startAt : Nat) (pre post : List RecOp) (now : Nat) (p : Profiler),
      runOps (Profiler.start startAt) pre = Except.ok p →
      p.stack = [] →
      runOps (Profiler.start startAt) (pre ++ RecOp.exit now :: post) =
        Except.error RecErr.RecorderMisuse ∧
      ∀ q, runOps (Profiler.start startAt) (pre ++ RecOp.exit now :: post) ≠
        Except.ok q := by
  intro startAt pre post now p hpre hstack
  have herr : runOps (Profiler.start startAt) (pre ++ RecOp.exit now :: post) =
      Except.error RecErr.RecorderMisuse := by
    rw [runOps_append, hpre]
    simp only [runOps, step, hstack]
  exact ⟨herr, fun q hq => by rw [herr] at hq; exact absurd hq (by simp)⟩

/-- Witness for C7: a bare `exit` as the very first operation after
`start`. -/
theorem spec_C7_witness :
    runOps (Profiler.start 0) ([] ++ RecOp.exit 0 :: []) =
      Except.error RecErr.RecorderMisuse :=
  (spec_C7 0 [] [] 0 (Profiler.start 0) rfl rfl).1

/-- C3: when the contract path does not exist on the filesystem, the
`profile` command bails with its not-found error before doing anything
else (`cli/src/commands.rs:228-231`): the result is that error and the
effect trace is empty — no profiler is created, no timing happens, and no
file (profile export or flame graph) is written, whatever the simulator,
options, or baseline reader would have done. -/
theorem spec_C3 :
    ∀ (fs : Fs) (cp : String) (m : Option String) (out fg cb : Option String)
      (sim : Profiler → Except RecErr Profiler) (endTime : Nat)
      (rb : String → Option ProfileData),
      fs.pathExists cp = false →
      profileCmd fs cp m out fg cb sim endTime rb =
        (Except.error (CmdError.notFound cp), []) := by
  intro fs cp m out fg cb sim endTime rb h
  rw [profileCmd, if_pos h]

/-- Witness for C3: profiling `missing.wasm` on a filesystem with no
files. -/
theorem spec_C3_witness :
    profileCmd fsEmpty "missing.wasm" none (some "out.json") (some "flame.svg")
        (some "base.json") Except.ok 0 (fun _ => none) =
      (Except.error (CmdError.notFound "missing.wasm"), []) :=
  spec_C3 fsEmpty "missing.wasm" none (some "out.json") (some "flame.svg")
    (some "base.json") Except.ok 0 (fun _ => none) rfl

/-- C4: exporting any `ProfileData` to the exchange document and importing
it back is the identity — every field, including every nanosecond count
and the exact overhead percentage, round-trips losslessly. -/
theorem spec_C4 :
    ∀ p : ProfileData, importProfile (exportProfile p) = some p := by
  intro p
  obtain ⟨cp, m, td, op, fs⟩ := p
  cases m <;>
    simp [exportProfile, importProfile, exportOptStr, importOptStr,
      importFunctions_map_exportFunction]

/-- C8: the sequence returned by `compare` is sorted by descending
absolute `time_diff_ns` — pairwise, so in particular every adjacent pair is
ordered and every prefix contains the largest deltas. -/
theorem spec_C8 :
    ∀ (t : ℚ) (baseline current : ProfileData),
      List.Sorted cmpGe (compare_profiles t baseline current) ∧
      List.Chain' (fun a b => b.time_diff_ns.natAbs ≤ a.time_diff_ns.natAbs)
        (compare_profiles t baseline current) := by
  intro t baseline current
  have h : List.Sorted cmpGe (compare_profiles t baseline current) :=
    List.sorted_insertionSort cmpGe _
  exact ⟨h, List.Pairwise.chain' h⟩

/-- C9: `list_incidents` never returns more than 100 rows whatever limit
is requested, and pages with an effective limit of `min(limit, 100)` when
a limit is given, 50 when it is omitted, at an offset defaulting to 0 when
omitted. -/
theorem spec_C9 :
    ∀ (db : List Incident) (params : ListIncidentsQuery),
      (list_incidents db params).length ≤ 100 ∧
      list_incidents db params =
        ((sortIncidents db).drop (params.offset.getD 0)).take
          (match params.limit with
           | some l => min l 100
           | none => 50) := by
  intro db params
  constructor
  · exact le_trans (List.length_take_le _ _) (Nat.min_le_right _ _)
  · obtain ⟨lim, off⟩ := params
    cases lim with
    | none => norm_num [list_incidents]
    | some l => rfl

/-- C10: the row rewritten by `update_incident` keeps `notified_users`
when the request omits it (the COALESCE), takes `end_time`,
`rto_achieved`, `rpo_achieved` and `lessons_learned` unconditionally from
the request (NULL when omitted), and leaves `id`, `contract_id`,
`incident_type`, `description`, `start_time` and `created_at` untouched;
the rewritten row is what the table stores for that id. -/
theorem spec_C10 :
    ∀ (db : List Incident) (iid : Nat) (req : UpdateIncidentRequest)
      (inc : Incident),
      inc ∈ db → inc.id = iid →
      applyUpdate inc req ∈ update_incident db iid req ∧
      (req.notified_users = none →
        (applyUpdate inc req).notified_users = inc.notified_users) ∧
      (applyUpdate inc req).end_time = req.end_time ∧
      (applyUpdate inc req).rto_achieved = req.rto_achieved ∧
      (applyUpdate inc req).rpo_achieved = req.rpo_achieved ∧
      (applyUpdate inc req).lessons_learned = req.lessons_learned ∧
      (applyUpdate inc req).id = inc.id ∧
      (applyUpdate inc req).contract_id = inc.contract_id ∧
      (applyUpdate inc req).incident_type = inc.incident_type ∧
      (applyUpdate inc req).description = inc.description ∧
      (applyUpdate inc req).start_time = inc.start_time ∧
      (applyUpdate inc req).created_at = inc.created_at := by
  intro db iid req inc hmem hid
  refine ⟨?_, ?_, rfl, rfl, rfl, rfl, rfl, rfl, rfl, rfl, rfl, rfl⟩
  · rw [update_incident]
    have : (fun i => if i.id = iid then applyUpdate i req else i) inc =
        applyUpdate inc req := by
      simp [hid]
    exact this ▸ List.mem_map_of_mem _ hmem
  · intro hnone
    rw [applyUpdate]
    simp [hnone]

/-- Witness for C10: updating the stored incident `incW` with a request
that omits `notified_users` and sets only `lessons_learned`. -/
theorem spec_C10_witness :
    applyUpdate incW reqW ∈ update_incident [incW] 7 reqW ∧
    (applyUpdate incW reqW).notified_users = incW.notified_users ∧
    (applyUpdate incW reqW).lessons_learned = reqW.lessons_learned ∧
    (applyUpdate incW reqW).end_time = reqW.end_time ∧
    (applyUpdate incW reqW).created_at = incW.created_at := by
  have h := spec_C10 [incW] 7 reqW incW (List.mem_cons_self _ _) rfl
  exact ⟨h.1, h.2.1 rfl, h.2.2.2.2.2.1, h.2.2.1, h.2.2.2.2.2.2.2.2.2.2.2⟩
